import Mathlib

/-!
Verification of the two circle-area programs `src/ex1.c` and `src/ex3.c`.

Both programs read a radius in centimeters, convert it to inches by
dividing by `CM = 2.54`, and print the area `PI * (r/CM) * (r/CM)` with
`PI = 3.14159`.  `ex3.c` additionally prints the circumference
`2 * PI * (r/CM)` and wraps the read-compute-print sequence in a
`while (r != 0)` loop whose condition is checked before the first read,
on the uninitialized value of `r`.

The embedding uses exact rational arithmetic for the C `float`
expressions, a trace of output lines for the `printf` calls, and an
explicit parameter for the uninitialized initial value of `r` in
`ex3.c`.
-/

/-- The macro constant `PI` from both source files: `#define PI 3.14159`. -/
def PI : ℚ := 314159 / 100000

/-- The macro constant `CM` from both source files: `#define CM 2.54`. -/
def CM : ℚ := 254 / 100

/-- The subexpression `r/CM` appearing in both programs: the radius
converted from centimeters to inches. -/
def toInches (r : ℚ) : ℚ := r / CM

/-- The assignment `a = PI * (r/CM) * (r/CM);` common to both programs. -/
def areaOf (r : ℚ) : ℚ := PI * toInches r * toInches r

/-- The assignment `c = 2 * PI * (r/CM);` of `ex3.c`. -/
def circOf (r : ℚ) : ℚ := 2 * PI * toInches r

/-- One line written to standard output by either program: the prompt,
an area result line carrying the computed area, or a circumference
result line carrying the computed circumference. -/
inductive Line where
  | prompt : Line
  | areaLine : ℚ → Line
  | circLine : ℚ → Line
deriving DecidableEq

/-- Whether a line is a result line (an area or circumference line), as
opposed to the prompt. -/
def Line.isResult : Line → Bool
  | Line.prompt => false
  | Line.areaLine _ => true
  | Line.circLine _ => true

/-- The whole of `ex1.c`, given the value `r` successfully parsed by its
single `scanf`: the output trace (prompt, then the area line) paired
with the exit code (0, the implicit return of `main`). -/
def ex1Run (r : ℚ) : List Line × ℕ :=
  let a := areaOf r
  ([Line.prompt, Line.areaLine a], 0)

/-- The `while (r != 0)` loop of `ex3.c`, given the current value of the
variable `r` (on entry: the uninitialized initial value) and the list of
values the remaining `scanf` calls will parse.  Returns the output trace
and a flag that is `true` when the loop exited through its condition.
When the condition holds but the input list is exhausted, the real
program's `scanf` fails and it loops forever on the stale value of `r`;
this is modelled by emitting the prompt of that iteration and returning
the flag `false`. -/
def ex3Run : ℚ → List ℚ → List Line × Bool
  | r, inputs =>
    if r = 0 then ([], true)
    else
      match inputs with
      | [] => ([Line.prompt], false)
      | r' :: rest =>
        let k := ex3Run r' rest
        (Line.prompt :: Line.areaLine (areaOf r') :: Line.circLine (circOf r') :: k.1,
         k.2)

/-- The decimal digit character for `n < 10`. -/
def digitChar (n : ℕ) : Char := Char.ofNat (48 + n)

/-- The decimal digit characters of a natural number, most significant
first, as `printf` writes the integral part of a number. -/
def natChars (n : ℕ) : List Char :=
  if n < 10 then [digitChar n]
  else natChars (n / 10) ++ [digitChar (n % 10)]
decreasing_by
  omega

/-- The text `printf` produces for a numeric value under the conversion
`%3.2f` of both programs: the value rounded to two decimal places and
written with a sign, the integral digits, a decimal point, and exactly
two fractional digits.  (The minimum field width 3 never pads, since the
shortest possible output `0.00` already has four characters.) -/
def formatFixed2 (q : ℚ) : String :=
  let n : ℤ := round (q * 100)
  let m : ℕ := n.natAbs
  let sign : List Char := if n < 0 then ['-'] else []
  String.mk (sign ++ natChars (m / 100) ++
    ['.', digitChar (m % 100 / 10), digitChar (m % 100 % 10)])

/-- The text of each output line, from the three `printf` format strings
of the sources (without the trailing newline). -/
def renderLine : Line → String
  | Line.prompt => "Enter radius (in cm):"
  | Line.areaLine a => "Circle\x27s area is " ++ formatFixed2 a ++ " (sq in)."
  | Line.circLine c => "Its circumference is " ++ formatFixed2 c ++ " (in)."

/-- The string splits as `pre ++ "." ++ post` where `post` is exactly
two decimal digit characters and `pre` holds no decimal point: the
string shows exactly two digits after its unique decimal point. -/
def twoDecimalDigits (s : String) : Prop :=
  ∃ pre post : List Char, s.data = pre ++ '.' :: post ∧ post.length = 2 ∧
    (∀ c ∈ post, c.isDigit) ∧ '.' ∉ pre

example : ex1Run 1 = ([Line.prompt, Line.areaLine (areaOf 1)], 0) := rfl

example : ex3Run 0 [1, 2] = ([], true) := rfl

example : ex3Run 1 [0] =
    ([Line.prompt, Line.areaLine (areaOf 0), Line.circLine (circOf 0)], true) := by
  simp [ex3Run]

example : areaOf (254 / 100) = 314159 / 100000 := by
  norm_num [areaOf, toInches, PI, CM]

theorem digitChar_isDigit : ∀ n : ℕ, n < 10 → (digitChar n).isDigit = true := by
  decide

theorem natChars_digits (n : ℕ) : ∀ c ∈ natChars n, c.isDigit = true := by
  induction n using Nat.strong_induction_on with
  | _ n ih =>
    rw [natChars]
    by_cases h : n < 10
    · rw [if_pos h]
      intro c hc
      rw [List.mem_singleton] at hc
      exact hc ▸ digitChar_isDigit n h
    · rw [if_neg h]
      intro c hc
      rcases List.mem_append.mp hc with hc | hc
      · exact ih (n / 10) (Nat.div_lt_self (by omega) (by omega)) c hc
      · rw [List.mem_singleton] at hc
        exact hc ▸ digitChar_isDigit (n % 10) (Nat.mod_lt n (by omega))

theorem dot_not_mem_natChars (n : ℕ) : '.' ∉ natChars n := by
  intro h
  have := natChars_digits n _ h
  simp [Char.isDigit] at this

theorem formatFixed2_twoDecimalDigits (q : ℚ) :
    twoDecimalDigits (formatFixed2 q) := by
  unfold formatFixed2 twoDecimalDigits
  set n : ℤ := round (q * 100) with hn
  refine ⟨(if n < 0 then ['-'] else []) ++ natChars (n.natAbs / 100),
    [digitChar (n.natAbs % 100 / 10), digitChar (n.natAbs % 100 % 10)], ?_, rfl, ?_, ?_⟩
  · simp
  · intro c hc
    rcases List.mem_cons.mp hc with hc | hc
    · exact hc ▸ digitChar_isDigit _ (by omega)
    · rw [List.mem_singleton] at hc
      exact hc ▸ digitChar_isDigit _ (by omega)
  · intro h
    rcases List.mem_append.mp h with h | h
    · split at h <;> simp_all
    · exact dot_not_mem_natChars _ h

example : (2.54 : ℚ) = 254 / 100 := by norm_num

/-- Claim C1: for every radius `r` read from input, both variants compute
the printed area as `PI * (r / 2.54) ^ 2` with `PI = 3.14159` and
`CM = 2.54`: the conversion to inches is division by `2.54` and the area
is `PI` times the square of the inch-radius. -/
theorem c1_area_formula :
    PI = 3.14159 ∧ CM = 2.54 ∧
    (∀ r : ℚ, toInches r = r / 2.54) ∧
    (∀ r : ℚ, areaOf r = PI * (r / 2.54) ^ 2) ∧
    (∀ r : ℚ, Line.areaLine (areaOf r) ∈ (ex1Run r).1) ∧
    (∀ r₀ r : ℚ, ∀ rest : List ℚ, r₀ ≠ 0 →
      Line.areaLine (areaOf r) ∈ (ex3Run r₀ (r :: rest)).1) := by
  refine ⟨by norm_num [PI], by norm_num [CM], ?_, ?_, ?_, ?_⟩
  · intro r
    norm_num [toInches, CM]
  · intro r
    unfold areaOf toInches CM
    norm_num
    ring
  · intro r
    simp [ex1Run]
  · intro r₀ r rest h
    rw [ex3Run]
    simp [h]

theorem c1_area_formula_witness :
    Line.areaLine (areaOf 3) ∈ (ex3Run 1 [3]).1 :=
  c1_area_formula.2.2.2.2.2 1 3 [] (by decide)

/-- Claim C2: for every radius `r` read from input, variant 2 (`ex3.c`)
computes the printed circumference as `2 * PI * (r / 2.54)` with
`PI = 3.14159`, and variant 1 (`ex1.c`) computes no circumference at
all: no circumference line ever appears in its output. -/
theorem c2_circumference_formula :
    (∀ r : ℚ, circOf r = 2 * PI * (r / 2.54)) ∧
    (∀ r₀ r : ℚ, ∀ rest : List ℚ, r₀ ≠ 0 →
      Line.circLine (circOf r) ∈ (ex3Run r₀ (r :: rest)).1) ∧
    (∀ r q : ℚ, Line.circLine q ∉ (ex1Run r).1) := by
  refine ⟨?_, ?_, ?_⟩
  · intro r
    norm_num [circOf, toInches, CM]
  · intro r₀ r rest h
    rw [ex3Run]
    simp [h]
  · intro r q
    simp [ex1Run]

theorem c2_circumference_formula_witness :
    Line.circLine (circOf 3) ∈ (ex3Run 1 [3]).1 :=
  c2_circumference_formula.2.1 1 3 [] (by decide)

/-- Claim C3, counterexample: start variant 2 with a non-zero
(uninitialized) radius, so the loop-entry precondition holds, and let
the first read return 0.  The loop body still prints the result lines
for that radius — the output contains an area line and a circumference
line for radius 0 — contradicting the claim that no result line is
printed for a radius that reads as 0. -/
theorem c3_zero_read_counterexample :
    (1 : ℚ) ≠ 0 ∧
    (ex3Run 1 [0]).1 =
      [Line.prompt, Line.areaLine (areaOf 0), Line.circLine (circOf 0)] ∧
    Line.areaLine (areaOf 0) ∈ (ex3Run 1 [0]).1 ∧
    Line.circLine (circOf 0) ∈ (ex3Run 1 [0]).1 := by
  refine ⟨by decide, by simp [ex3Run], by simp [ex3Run], by simp [ex3Run]⟩

/-- Claim C3, amended: when the radius read by variant 2 is exactly 0
(under the precondition that the loop was entered, i.e. the current
radius is non-zero), the loop body still completes for that radius —
it prints the area line and the circumference line for radius 0, both
with value 0 — and only then does the loop terminate: no further
prompt, read, or output follows, whatever input remains. -/
theorem c3_zero_read_amended (r₀ : ℚ) (rest : List ℚ) (h : r₀ ≠ 0) :
    ex3Run r₀ (0 :: rest) =
      ([Line.prompt, Line.areaLine (areaOf 0), Line.circLine (circOf 0)], true) ∧
    areaOf 0 = 0 ∧ circOf 0 = 0 := by
  refine ⟨?_, by norm_num [areaOf, toInches], by norm_num [circOf, toInches]⟩
  rw [ex3Run]
  simp [h]
  rw [ex3Run.eq_def]
  simp

theorem c3_zero_read_amended_witness :
    ex3Run 1 (0 :: [5]) =
      ([Line.prompt, Line.areaLine (areaOf 0), Line.circLine (circOf 0)], true) ∧
    areaOf 0 = 0 ∧ circOf 0 = 0 :=
  c3_zero_read_amended 1 [5] (by decide)

/-- Claim C4: variant 2 evaluates its loop condition `r != 0` before any
input has been read.  In the model, the uninitialized initial value `r₀`
alone decides loop entry: when `r₀ = 0` the program produces no output
at all and touches no input, and the loop body is entered — the output
is non-empty — exactly when `r₀ ≠ 0`.  A non-zero initial value is thus
a precondition for the loop running at all. -/
theorem c4_condition_before_first_read :
    ∀ inputs : List ℚ, ex3Run 0 inputs = ([], true) ∧
      ∀ r₀ : ℚ, ((ex3Run r₀ inputs).1 ≠ [] ↔ r₀ ≠ 0) := by
  intro inputs
  constructor
  · rw [ex3Run.eq_def]
    simp
  · intro r₀
    by_cases h : r₀ = 0
    · subst h
      rw [ex3Run.eq_def]
      simp
    · rw [ex3Run.eq_def]
      simp only [if_neg h]
      cases inputs <;> simp [h]

/-- Claim C5: variant 1 performs the read-compute-print sequence exactly
once for every execution — one prompt and one result line — and
terminates with exit code 0 whatever value was read. -/
theorem c5_ex1_single_pass (r : ℚ) :
    (ex1Run r).1 = [Line.prompt, Line.areaLine (areaOf r)] ∧
    (ex1Run r).1.count Line.prompt = 1 ∧
    (ex1Run r).1.countP Line.isResult = 1 ∧
    (ex1Run r).2 = 0 := by
  refine ⟨rfl, ?_, ?_, rfl⟩
  · simp [ex1Run, List.count_cons]
  · simp [ex1Run, List.countP_cons, Line.isResult]

/-- Claim C6: for input radius `2.54` cm (one inch) the computed area is
`3.14159` square inches to within `0.01`, and for input radius `5.08` cm
(two inches) the computed area and the computed circumference are both
`12.57` to within `0.01`. -/
theorem c6_sample_values :
    |areaOf 2.54 - 3.14159| ≤ 1 / 100 ∧
    |areaOf 5.08 - 12.57| ≤ 1 / 100 ∧
    |circOf 5.08 - 12.57| ≤ 1 / 100 := by
  refine ⟨?_, ?_, ?_⟩ <;>
  · rw [abs_le]
    constructor <;> norm_num [areaOf, circOf, toInches, PI, CM]

/-- Claim C7: converting a radius to inches and back — `(r / 2.54) * 2.54`
— recovers the radius; in the exact-arithmetic model the round trip is
an identity, hence within any floating-point tolerance. -/
theorem c7_roundtrip (r : ℚ) : toInches r * CM = r := by
  rw [toInches]
  exact div_mul_cancel₀ r (by norm_num [CM])

/-- Claim C8: for every non-negative radius input, the computed area and
the computed circumference (variant 2) are non-negative. -/
theorem c8_nonneg_outputs (r : ℚ) (h : 0 ≤ r) :
    0 ≤ areaOf r ∧ 0 ≤ circOf r := by
  have hCM : (0 : ℚ) < CM := by norm_num [CM]
  have hPI : (0 : ℚ) ≤ PI := by norm_num [PI]
  have ht : 0 ≤ toInches r := div_nonneg h (le_of_lt hCM)
  exact ⟨mul_nonneg (mul_nonneg hPI ht) ht,
    mul_nonneg (mul_nonneg (by norm_num) hPI) ht⟩

theorem c8_nonneg_outputs_witness :
    0 ≤ areaOf 3 ∧ 0 ≤ circOf 3 :=
  c8_nonneg_outputs 3 (by decide)

/-- Claim C9: every numeric value either program prints is rendered with
exactly two digits after the decimal point, the prompt line is exactly
the string of the source, and the result lines follow the two templates
of the source `printf` format strings. -/
theorem c9_output_format :
    (∀ q : ℚ, twoDecimalDigits (formatFixed2 q)) ∧
    renderLine Line.prompt = "Enter radius (in cm):" ∧
    (∀ a : ℚ, renderLine (Line.areaLine a) =
      "Circle\x27s area is " ++ formatFixed2 a ++ " (sq in).") ∧
    (∀ c : ℚ, renderLine (Line.circLine c) =
      "Its circumference is " ++ formatFixed2 c ++ " (in).") :=
  ⟨formatFixed2_twoDecimalDigits, rfl, fun _ => rfl, fun _ => rfl⟩

/-- Claim C10: variant 1 is deterministic — two runs whose single `scanf`
parses the same radius value produce the same entire output trace and
exit code, since the run is a function of the parsed value alone. -/
theorem c10_ex1_deterministic (r₁ r₂ : ℚ) (h : r₁ = r₂) :
    ex1Run r₁ = ex1Run r₂ ∧
    (ex1Run r₁).1.map renderLine = (ex1Run r₂).1.map renderLine := by
  rw [h]
  exact ⟨rfl, rfl⟩

theorem c10_ex1_deterministic_witness :
    ex1Run 3 = ex1Run 3 ∧
    (ex1Run 3).1.map renderLine = (ex1Run 3).1.map renderLine :=
  c10_ex1_deterministic 3 3 rfl
